import Mathlib

/-!
Interface-address handle and physical-address formatter of `dmitigr::lin`.

A shallow embedding of `ifaddrs.hpp` (the handle `Ip_adapter_addresses` and the
function `physical_address_string`) and of the program `lin-unit-ifaddrs.cpp`,
followed by the properties proved about them.

Conventions of the embedding.

* A C++ exception is an `Except.error` carrying the exception class and its
  message; a function that can throw returns `Except Error _`.
* A pointer is either `null` or points to a value; dereferencing `null` is
  undefined behaviour in the source and is an explicit signal in the model of
  the program.
* The operating system is an explicit state `OS` that is threaded through every
  operation calling `getifaddrs` or `freeifaddrs`.
* Integers of the C structures are natural numbers; a byte read from memory is
  reduced modulo 256.
-/

namespace dmitigr.str

/-- Modelled from the spec: the enumeration `dmitigr::str::Byte_format` of
`str/transform.hpp`, which is not among the sources; `hex` is the only value the
sources under study name. -/
inductive Byte_format where
  | hex : Byte_format
deriving DecidableEq, Repr

/-- Modelled from the spec: the lowercase hexadecimal digit of a value below 16
(`str/transform.hpp` is not among the sources; the spec renders each byte as
"two lowercase hexadecimal digits"). -/
def hex_digit (n : Nat) : Char :=
  "0123456789abcdef".toList.getD n '0'

/-- Modelled from the spec: the two-digit group of one byte, high digit first,
with the leading zero kept. -/
def hex_byte (b : Nat) : String :=
  String.mk [hex_digit (b / 16 % 16), hex_digit (b % 16)]

/-- Modelled from the spec: `dmitigr::str::sparsed_string(input, Byte_format::hex,
delimiter)` of `str/transform.hpp`, which is not among the sources. In the
words of the spec: each byte is rendered as two lowercase hexadecimal digits,
the delimiter is inserted between consecutive byte groups, there is no trailing
delimiter, and a zero-length input yields the empty string. The input view is
the list of its bytes. -/
def sparsed_string : List Nat → Byte_format → String → String
  | [], _, _ => ""
  | [b], .hex, _ => hex_byte b
  | b :: c :: rest, .hex, delimiter =>
      hex_byte b ++ delimiter ++ sparsed_string (c :: rest) .hex delimiter

/-- The value of a hexadecimal digit, the inverse of `hex_digit`; used only to
state the round trip of the formatter. -/
def hex_value (c : Char) : Option Nat :=
  let i := "0123456789abcdef".toList.indexOf c
  if i < 16 then some i else none

/-- The byte a two-digit group stands for; `none` when the string is not a
group of exactly two hexadecimal digits. -/
def decode_hex_byte (g : String) : Option Nat :=
  match g.data with
  | [h, l] =>
    match hex_value h, hex_value l with
    | some x, some y => some (16 * x + y)
    | _, _ => none
  | _ => none

end dmitigr.str

namespace dmitigr.lin

open dmitigr.str

/-- The exceptions the sources throw, by class, with the message. -/
inductive Error where
  | runtime_error (what : String) : Error
  | logic_error (what : String) : Error
  | invalid_argument (what : String) : Error
deriving DecidableEq, Repr

/-- The address-family constant `AF_PACKET` of `<sys/socket.h>` (17 on Linux). -/
def AF_PACKET : Nat := 17

/-- The object `ifa_addr` points to. `sa_family` is the discriminator read
through `struct sockaddr`; `sll_halen` and `sll_addr` are what the source reads
after reinterpreting the same object as `struct sockaddr_ll`: the declared
address length, and the memory from the start of the field `sll_addr` onwards,
by byte offset. -/
structure sockaddr where
  sa_family : Nat
  sll_halen : Nat
  sll_addr : Nat → Nat

mutual
/-- The record `struct ifaddrs` of `<ifaddrs.h>`, with the fields the sources
read. -/
inductive ifaddrs where
  | mk (ifa_next : ifaddrs_ptr) (ifa_name : String) (ifa_addr : Option sockaddr) : ifaddrs
/-- A pointer `ifaddrs*`: null, or the address of a record. -/
inductive ifaddrs_ptr where
  | null : ifaddrs_ptr
  | to (target : ifaddrs) : ifaddrs_ptr
end

/-- Field `ifa_next`. -/
def ifaddrs.ifa_next : ifaddrs → ifaddrs_ptr
  | .mk n _ _ => n

/-- Field `ifa_name`. -/
def ifaddrs.ifa_name : ifaddrs → String
  | .mk _ n _ => n

/-- Field `ifa_addr`; `none` is the null pointer. -/
def ifaddrs.ifa_addr : ifaddrs → Option sockaddr
  | .mk _ _ a => a

/-- Conversion of a pointer to `bool`: true when it is not null. -/
def ifaddrs_ptr.to_bool : ifaddrs_ptr → Bool
  | .null => false
  | .to _ => true

/-- The view `std::string_view{reinterpret_cast<const char*>(sll->sll_addr),
sll->sll_halen}`: the `sll_halen` bytes stored from `sll_addr` onwards. -/
def sll_addr_view (sll : sockaddr) : List Nat :=
  (List.range sll.sll_halen).map (fun i => sll.sll_addr i % 256)

/-- The message of the exception `physical_address_string` throws. -/
def not_af_packet_message : String :=
  "cannot get physical address from not AF_PACKET family"

/-- The function `physical_address_string(iaa, delimiter)` of `ifaddrs.hpp`. -/
def physical_address_string (iaa : ifaddrs) (delimiter : String) : Except Error String :=
  match iaa.ifa_addr with
  | none => .error (.invalid_argument not_af_packet_message)
  | some sll =>
    if sll.sa_family ≠ AF_PACKET then
      .error (.invalid_argument not_af_packet_message)
    else
      .ok (sparsed_string (sll_addr_view sll) Byte_format.hex delimiter)

/-- The default value of the parameter `delimiter` of `physical_address_string`. -/
def default_delimiter : String := "-"

/-- Memory holding the given bytes, and zero after them. -/
def bytes_at (bs : List Nat) : Nat → Nat :=
  fun i => bs.getD i 0

/-- A record of the packet family with the six-byte address
`00:1A:2B:3C:4D:5E`. -/
def eth0 : ifaddrs :=
  .mk .null "eth0" (some ⟨AF_PACKET, 6, bytes_at [0x00, 0x1A, 0x2B, 0x3C, 0x4D, 0x5E]⟩)

/-- The state of the operating-system layer, with its instrumentation.
`getifaddrs_outcome n` is what the call number `n` (from zero) of `getifaddrs`
does: the value it returns and the pointer it stores through its argument.
`getifaddrs_calls` counts the calls of `getifaddrs` made so far, and
`freeifaddrs_calls` lists, in order, the argument of every call of
`freeifaddrs` made so far. -/
structure OS where
  getifaddrs_outcome : Nat → Int × ifaddrs_ptr
  getifaddrs_calls : Nat
  freeifaddrs_calls : List ifaddrs_ptr

/-- The call `getifaddrs(&data)`: the returned value, the new value of `data`,
and the new state. -/
def getifaddrs (os : OS) : Int × ifaddrs_ptr × OS :=
  ((os.getifaddrs_outcome os.getifaddrs_calls).1,
   (os.getifaddrs_outcome os.getifaddrs_calls).2,
   OS.mk os.getifaddrs_outcome (os.getifaddrs_calls + 1) os.freeifaddrs_calls)

/-- The call `freeifaddrs(p)`. -/
def freeifaddrs (p : ifaddrs_ptr) (os : OS) : OS :=
  OS.mk os.getifaddrs_outcome os.getifaddrs_calls (os.freeifaddrs_calls ++ [p])

/-- The class `Ip_adapter_addresses`. Its only member is
`std::unique_ptr<ifaddrs, void(*)(ifaddrs*)> data_`; the deleter is
`&freeifaddrs` in every instance (the only constructor sets it, a move keeps
it), so the member is modelled by the pointer it holds. -/
structure Ip_adapter_addresses where
  data_ : ifaddrs_ptr

/-- The default constructor `Ip_adapter_addresses()`: `data_{nullptr, &freeifaddrs}`. -/
def Ip_adapter_addresses.ctor : Ip_adapter_addresses :=
  ⟨.null⟩

/-- The implicit destructor, which is the destructor of `data_`: the deleter
is called on the held pointer when that pointer is not null. -/
def Ip_adapter_addresses.destructor (self : Ip_adapter_addresses) (os : OS) : OS :=
  match self.data_ with
  | .null => os
  | .to target => freeifaddrs (.to target) os

/-- The call `data_.reset(p)`: the pointer held becomes `p`, then the deleter is
called on the pointer held before when that one is not null. -/
def Ip_adapter_addresses.reset (self : Ip_adapter_addresses) (p : ifaddrs_ptr) (os : OS) :
    Ip_adapter_addresses × OS :=
  match self.data_ with
  | .null => (⟨p⟩, os)
  | .to old => (⟨p⟩, freeifaddrs (.to old) os)

/-- The implicit move constructor: the new object takes the pointer and the
source is left holding null. The result is the new object, then the source. -/
def Ip_adapter_addresses.move (self : Ip_adapter_addresses) :
    Ip_adapter_addresses × Ip_adapter_addresses :=
  (⟨self.data_⟩, ⟨.null⟩)

/-- The message of the exception `from_system` throws. -/
def cannot_get_message : String :=
  "cannot get network interface addresses"

/-- The function `Ip_adapter_addresses::from_system()`. The local `result` is
destroyed when the exception leaves the function; on the normal path it is
moved into the returned object and then destroyed. -/
def Ip_adapter_addresses.from_system (os : OS) : Except Error Ip_adapter_addresses × OS :=
  let result := Ip_adapter_addresses.ctor
  let r := getifaddrs os
  if r.1 ≠ 0 then
    (.error (.runtime_error cannot_get_message), result.destructor r.2.2)
  else
    let s := result.reset r.2.1 r.2.2
    (.ok s.1.move.1, s.1.move.2.destructor s.2)

/-- The function `is_valid()`: `static_cast<bool>(data_)`. -/
def Ip_adapter_addresses.is_valid (self : Ip_adapter_addresses) : Bool :=
  self.data_.to_bool

/-- The conversion `explicit operator bool()`. -/
def Ip_adapter_addresses.operator_bool (self : Ip_adapter_addresses) : Bool :=
  self.is_valid

/-- The message of the exception `head` throws. -/
def invalid_instance_message : String :=
  "cannot use invalid instance of type dmitigr::lin::Ip_adapter_addresses"

/-- The read-only accessor `head() const`. -/
def Ip_adapter_addresses.head (self : Ip_adapter_addresses) : Except Error ifaddrs_ptr :=
  if !self.is_valid then
    .error (.logic_error invalid_instance_message)
  else
    .ok self.data_

/-- The mutable accessor `head()`, which forwards to the read-only one. -/
def Ip_adapter_addresses.head_mut (self : Ip_adapter_addresses) : Except Error ifaddrs_ptr :=
  self.head

/-- A system on which no call has been made yet and whose every call of
`getifaddrs` returns `ret` and stores `list`. -/
def os_with (ret : Int) (list : ifaddrs_ptr) : OS :=
  OS.mk (fun _ => (ret, list)) 0 []

/-- The member `what()` of an exception. -/
def Error.what : Error → String
  | .runtime_error w => w
  | .logic_error w => w
  | .invalid_argument w => w

end dmitigr.lin

namespace lin_unit_ifaddrs

open dmitigr.lin

/-- What interrupts the loop of the program: an exception on its way to the
handlers, or a read through a null pointer, which is undefined behaviour. -/
inductive Signal where
  | exception (e : Error) : Signal
  | null_dereference : Signal
deriving DecidableEq, Repr

/-- The loop `for (auto* iaa = iaas.head(); iaa; iaa = iaa->ifa_next)` of
`main`, from the pointer `iaa` on, with the text written to `cout` so far. The
result is the text written to `cout` and what interrupted the loop, if anything.
`endl` writes a newline. -/
def traverse : ifaddrs_ptr → String → String × Option Signal
  | .null, cout => (cout, none)
  | .to (.mk ifa_next ifa_name ifa_addr), cout =>
    match ifa_addr with
    | none => (cout, some .null_dereference)
    | some addr =>
      let family := addr.sa_family
      if family = AF_PACKET then
        let cout1 := cout ++ "Adapter " ++ ifa_name ++ ":" ++ "\n"
        match physical_address_string (.mk ifa_next ifa_name ifa_addr) default_delimiter with
        | .error e => (cout1, some (.exception e))
        | .ok mac =>
          traverse ifa_next
            (cout1 ++ "  physical address: " ++ (if mac.isEmpty then "null" else mac) ++ "\n")
      else
        traverse ifa_next cout

/-- Whether some record of the list from `iaa` on has a null `ifa_addr`; used
only to state when the loop of the program reads through a null pointer. -/
def some_address_null : ifaddrs_ptr → Bool
  | .null => false
  | .to (.mk ifa_next _ ifa_addr) => ifa_addr.isNone || some_address_null ifa_next

/-- How the process ends: `main` returns a status, or the behaviour is
undefined (in practice the process is killed by a signal). -/
inductive Termination where
  | returned (status : Int) : Termination
  | undefined_behaviour : Termination
deriving DecidableEq, Repr

/-- A run of the program: how it ended, what it wrote, and the final state of
the operating-system layer. -/
structure Run where
  termination : Termination
  cout : String
  cerr : String
  os : OS

/-- The function `main` of `lin-unit-ifaddrs.cpp`. Every exception the model
can raise derives from `std::exception`, so the handler `catch (...)` is never
entered. The handle `iaas` is destroyed when its scope is left, normally or by
an exception. -/
def main (os : OS) : Run :=
  match Ip_adapter_addresses.from_system os with
  | (.error e, os1) => ⟨.returned 1, "", e.what ++ "\n", os1⟩
  | (.ok iaas, os1) =>
    if iaas.operator_bool then
      match iaas.head with
      | .error e => ⟨.returned 1, "", e.what ++ "\n", iaas.destructor os1⟩
      | .ok head =>
        match traverse head "" with
        | (cout, none) => ⟨.returned 0, cout, "", iaas.destructor os1⟩
        | (cout, some (.exception e)) => ⟨.returned 1, cout, e.what ++ "\n", iaas.destructor os1⟩
        | (cout, some .null_dereference) => ⟨.undefined_behaviour, cout, "", os1⟩
    else
      ⟨.returned 0, "no network adapters found", "", iaas.destructor os1⟩

/-- A record without an address (`ifa_addr` is null), followed by `eth0`. -/
def tun0_then_eth0 : ifaddrs_ptr :=
  .to (.mk (.to eth0) "tun0" none)

end lin_unit_ifaddrs

namespace dmitigr.lin

open dmitigr.str

/-! ## The formatter -/

theorem hex_value_hex_digit (n : Nat) (h : n < 16) : hex_value (hex_digit n) = some n := by
  interval_cases n <;> rfl

theorem hex_digit_mem (n : Nat) (h : n < 16) : hex_digit n ∈ "0123456789abcdef".toList := by
  interval_cases n <;> decide

theorem decode_hex_byte_hex_byte (b : Nat) (h : b < 256) :
    decode_hex_byte (hex_byte b) = some b := by
  have h1 : b / 16 % 16 < 16 := Nat.mod_lt _ (by norm_num)
  have h2 : b % 16 < 16 := Nat.mod_lt _ (by norm_num)
  simp only [decode_hex_byte, hex_byte, hex_value_hex_digit _ h1, hex_value_hex_digit _ h2]
  congr 1
  omega

theorem hex_byte_length (b : Nat) : (hex_byte b).length = 2 := rfl

theorem intercalate_go_data (acc d : String) (gs : List String) :
    (String.intercalate.go acc d gs).data
      = acc.data ++ (gs.map (fun g => d.data ++ g.data)).flatten := by
  induction gs generalizing acc with
  | nil => simp [String.intercalate.go]
  | cons g gs ih =>
    simp [String.intercalate.go, ih, List.append_assoc]

theorem sparsed_string_cons_data (b : Nat) (bs : List Nat) (d : String) :
    (sparsed_string (b :: bs) Byte_format.hex d).data
      = (hex_byte b).data ++ (bs.map (fun c => d.data ++ (hex_byte c).data)).flatten := by
  induction bs generalizing b with
  | nil => simp [sparsed_string]
  | cons c rest ih =>
    simp [sparsed_string, ih, List.append_assoc]

theorem sparsed_string_eq_intercalate (bs : List Nat) (d : String) :
    sparsed_string bs Byte_format.hex d = String.intercalate d (bs.map hex_byte) := by
  cases bs with
  | nil => rfl
  | cons b bs =>
    apply String.ext
    rw [sparsed_string_cons_data]
    simp [String.intercalate, intercalate_go_data, List.map_map, Function.comp_def]

theorem sparsed_string_length (bs : List Nat) (d : String) :
    (sparsed_string bs Byte_format.hex d).length
      = 2 * bs.length + (bs.length - 1) * d.length := by
  cases bs with
  | nil => simp [sparsed_string]
  | cons b bs =>
    induction bs generalizing b with
    | nil => simp [sparsed_string, hex_byte_length]
    | cons c rest ih =>
      simp only [sparsed_string, String.length_append, ih, hex_byte_length, List.length_cons]
      simp only [Nat.add_sub_cancel]
      ring

theorem hex_byte_digits (b : Nat) :
    ∀ c ∈ (hex_byte b).data, c ∈ "0123456789abcdef".toList := by
  have h1 : b / 16 % 16 < 16 := Nat.mod_lt _ (by norm_num)
  have h2 : b % 16 < 16 := Nat.mod_lt _ (by norm_num)
  intro c hc
  simp only [hex_byte, List.mem_cons, List.mem_singleton, List.not_mem_nil, or_false] at hc
  rcases hc with rfl | rfl
  · exact hex_digit_mem _ h1
  · exact hex_digit_mem _ h2

theorem sll_addr_view_length (sll : sockaddr) : (sll_addr_view sll).length = sll.sll_halen := by
  simp [sll_addr_view]

theorem physical_address_string_packet (iaa : ifaddrs) (delimiter : String) (sll : sockaddr)
    (haddr : iaa.ifa_addr = some sll) (hfam : sll.sa_family = AF_PACKET) :
    physical_address_string iaa delimiter
      = .ok (sparsed_string (sll_addr_view sll) Byte_format.hex delimiter) := by
  simp [physical_address_string, haddr, hfam]

/-- Claim C1: `physical_address_string` fails exactly when the address pointer
of the record is null or the address family is not `AF_PACKET`, the failure is
the invalid-argument error, and a record with a non-null address of family
`AF_PACKET` gives a string whatever its declared address length. -/
theorem physical_address_string_fails_iff (iaa : ifaddrs) (delimiter : String) :
    ((∃ e, physical_address_string iaa delimiter = .error e) ↔
        (iaa.ifa_addr = none ∨ ∃ a, iaa.ifa_addr = some a ∧ a.sa_family ≠ AF_PACKET)) ∧
    (∀ e, physical_address_string iaa delimiter = .error e →
        e = .invalid_argument not_af_packet_message) ∧
    (∀ a, iaa.ifa_addr = some a → a.sa_family = AF_PACKET →
        ∃ s, physical_address_string iaa delimiter = .ok s) := by
  unfold physical_address_string
  cases haddr : iaa.ifa_addr with
  | none => simp
  | some a =>
    by_cases hfam : a.sa_family = AF_PACKET
    · simp [hfam]
    · simp [hfam]

/-- The witness of claim C1: a record without an address fails with the
invalid-argument error, and `eth0` gives a string. -/
theorem physical_address_string_fails_iff_witness :
    (∃ e, physical_address_string (.mk .null "tun0" none) "-" = .error e) ∧
    (∃ s, physical_address_string eth0 ":" = .ok s) :=
  ⟨(physical_address_string_fails_iff (.mk .null "tun0" none) "-").1.mpr (Or.inl rfl),
   (physical_address_string_fails_iff eth0 ":").2.2 _ rfl rfl⟩

/-- Claim C2: for a record of the packet family with declared address length
`N > 0`, the result is `N` groups of exactly two lowercase hexadecimal digits
joined by the delimiter (between consecutive groups only), its length is
`2 * N + (N - 1) * |delimiter|`, and decoding the groups gives back the first
`N` raw address bytes, in order. -/
theorem physical_address_string_groups (iaa : ifaddrs) (delimiter : String) (sll : sockaddr)
    (haddr : iaa.ifa_addr = some sll) (hfam : sll.sa_family = AF_PACKET)
    (_hlen : 0 < sll.sll_halen) :
    ∃ (s : String) (groups : List String),
      physical_address_string iaa delimiter = .ok s ∧
      groups.length = sll.sll_halen ∧
      (∀ g ∈ groups, g.length = 2 ∧ ∀ c ∈ g.data, c ∈ "0123456789abcdef".toList) ∧
      s = String.intercalate delimiter groups ∧
      s.length = 2 * sll.sll_halen + (sll.sll_halen - 1) * delimiter.length ∧
      groups.map decode_hex_byte
        = (List.range sll.sll_halen).map (fun i => some (sll.sll_addr i % 256)) := by
  refine ⟨_, (sll_addr_view sll).map hex_byte,
    physical_address_string_packet iaa delimiter sll haddr hfam, ?_, ?_, ?_, ?_, ?_⟩
  · simp [sll_addr_view_length]
  · intro g hg
    obtain ⟨b, _, rfl⟩ := List.mem_map.mp hg
    exact ⟨hex_byte_length b, hex_byte_digits b⟩
  · exact sparsed_string_eq_intercalate _ _
  · rw [sparsed_string_length, sll_addr_view_length]
  · simp only [sll_addr_view, List.map_map]
    apply List.map_congr_left
    intro i _
    exact decode_hex_byte_hex_byte _ (Nat.mod_lt _ (by norm_num))

/-- The witness of claim C2, at `eth0` with the delimiter ":". -/
theorem physical_address_string_groups_witness :
    ∃ (s : String) (groups : List String),
      physical_address_string eth0 ":" = .ok s ∧
      groups.length = 6 ∧
      (∀ g ∈ groups, g.length = 2 ∧ ∀ c ∈ g.data, c ∈ "0123456789abcdef".toList) ∧
      s = String.intercalate ":" groups ∧
      s.length = 2 * 6 + (6 - 1) * ":".length ∧
      groups.map decode_hex_byte
        = (List.range 6).map
            (fun i => some (bytes_at [0x00, 0x1A, 0x2B, 0x3C, 0x4D, 0x5E] i % 256)) :=
  physical_address_string_groups eth0 ":" ⟨AF_PACKET, 6, bytes_at [0x00, 0x1A, 0x2B, 0x3C, 0x4D, 0x5E]⟩
    rfl rfl (by decide)

/-- Claim C3: the record of the packet family with declared length 6 and bytes
00 1A 2B 3C 4D 5E, formatted with the default delimiter (a single dash), gives
exactly "00-1a-2b-3c-4d-5e". -/
theorem physical_address_string_eth0 :
    default_delimiter = "-" ∧
    physical_address_string eth0 default_delimiter = .ok "00-1a-2b-3c-4d-5e" :=
  ⟨rfl, rfl⟩

/-- Claim C4: for a record of the packet family with declared address length 0
the result is the empty string, whatever the delimiter, and no error is
raised. -/
theorem physical_address_string_empty (iaa : ifaddrs) (delimiter : String) (sll : sockaddr)
    (haddr : iaa.ifa_addr = some sll) (hfam : sll.sa_family = AF_PACKET)
    (hlen : sll.sll_halen = 0) :
    physical_address_string iaa delimiter = .ok "" := by
  rw [physical_address_string_packet iaa delimiter sll haddr hfam]
  simp [sll_addr_view, hlen, sparsed_string]

/-- The witness of claim C4: a loopback record, with the delimiter "-". -/
theorem physical_address_string_empty_witness :
    physical_address_string (.mk .null "lo" (some ⟨AF_PACKET, 0, bytes_at []⟩)) "-" = .ok "" :=
  physical_address_string_empty _ "-" ⟨AF_PACKET, 0, bytes_at []⟩ rfl rfl rfl

/-! ## The handle -/

theorem from_system_fst (os : OS) :
    (Ip_adapter_addresses.from_system os).1
      = if (os.getifaddrs_outcome os.getifaddrs_calls).1 ≠ 0 then
          .error (.runtime_error cannot_get_message)
        else .ok ⟨(os.getifaddrs_outcome os.getifaddrs_calls).2⟩ := by
  unfold Ip_adapter_addresses.from_system
  by_cases h : (os.getifaddrs_outcome os.getifaddrs_calls).1 = 0
  · simp [getifaddrs, h, Ip_adapter_addresses.reset, Ip_adapter_addresses.ctor,
      Ip_adapter_addresses.move]
  · simp [getifaddrs, h]

theorem from_system_snd (os : OS) :
    (Ip_adapter_addresses.from_system os).2
      = OS.mk os.getifaddrs_outcome (os.getifaddrs_calls + 1) os.freeifaddrs_calls := by
  unfold Ip_adapter_addresses.from_system
  by_cases h : (os.getifaddrs_outcome os.getifaddrs_calls).1 = 0
  · simp [getifaddrs, h, Ip_adapter_addresses.reset, Ip_adapter_addresses.ctor,
      Ip_adapter_addresses.move, Ip_adapter_addresses.destructor]
  · simp [getifaddrs, h, Ip_adapter_addresses.ctor, Ip_adapter_addresses.destructor]

theorem destructor_freeifaddrs_calls (h : Ip_adapter_addresses) (os : OS) :
    (h.destructor os).freeifaddrs_calls
      = if h.is_valid then os.freeifaddrs_calls ++ [h.data_] else os.freeifaddrs_calls := by
  obtain ⟨p⟩ := h
  cases p <;>
    simp [Ip_adapter_addresses.destructor, Ip_adapter_addresses.is_valid, ifaddrs_ptr.to_bool,
      freeifaddrs]

theorem head_of_valid (h : Ip_adapter_addresses) (hv : h.is_valid = true) :
    h.head = .ok h.data_ := by
  simp [Ip_adapter_addresses.head, hv]

theorem head_of_invalid (h : Ip_adapter_addresses) (hv : h.is_valid = false) :
    h.head = .error (.logic_error invalid_instance_message) := by
  simp [Ip_adapter_addresses.head, hv]

theorem to_bool_eq_true_iff (p : ifaddrs_ptr) : p.to_bool = true ↔ p ≠ .null := by
  cases p <;> simp [ifaddrs_ptr.to_bool]

/-- Claim C5: `from_system` calls `getifaddrs` exactly once and fails, with the
runtime error, exactly when that call returns a nonzero value; when it fails no
handle is returned, `freeifaddrs` is not called in either case, and when the
call returns zero no error is raised. -/
theorem from_system_fails_iff (os : OS) :
    (Ip_adapter_addresses.from_system os).2.getifaddrs_calls = os.getifaddrs_calls + 1 ∧
    (Ip_adapter_addresses.from_system os).2.freeifaddrs_calls = os.freeifaddrs_calls ∧
    ((∃ e, (Ip_adapter_addresses.from_system os).1 = .error e) ↔
        (os.getifaddrs_outcome os.getifaddrs_calls).1 ≠ 0) ∧
    (∀ e, (Ip_adapter_addresses.from_system os).1 = .error e →
        e = .runtime_error cannot_get_message) ∧
    ((os.getifaddrs_outcome os.getifaddrs_calls).1 ≠ 0 →
        ∀ h, (Ip_adapter_addresses.from_system os).1 ≠ .ok h) ∧
    ((os.getifaddrs_outcome os.getifaddrs_calls).1 = 0 →
        ∃ h, (Ip_adapter_addresses.from_system os).1 = .ok h) := by
  rw [from_system_fst, from_system_snd]
  by_cases h : (os.getifaddrs_outcome os.getifaddrs_calls).1 = 0
  · simp [h]
  · simp [h]

/-- The witness of claim C5: a system whose call fails with -1, and one whose
call succeeds. -/
theorem from_system_fails_iff_witness :
    (∃ e, (Ip_adapter_addresses.from_system (os_with (-1) .null)).1 = .error e) ∧
    (∃ h, (Ip_adapter_addresses.from_system (os_with 0 (.to eth0))).1 = .ok h) :=
  ⟨(from_system_fails_iff (os_with (-1) .null)).2.2.1.mpr (by decide),
   (from_system_fails_iff (os_with 0 (.to eth0))).2.2.2.2.2 rfl⟩

/-- Claim C6 as stated fails: when `getifaddrs` succeeds and stores a null
head, `from_system` neither raises an error nor returns a valid handle. -/
theorem from_system_returns_invalid :
    ¬ ((∃ e, (Ip_adapter_addresses.from_system (os_with 0 .null)).1 = .error e) ∨
       (∃ h, (Ip_adapter_addresses.from_system (os_with 0 .null)).1 = .ok h ∧
          h.is_valid = true ∧ ∃ p, h.head = .ok p)) := by
  have hr : (Ip_adapter_addresses.from_system (os_with 0 .null)).1 = .ok ⟨.null⟩ := rfl
  rw [hr]
  rintro (⟨e, he⟩ | ⟨h, hh, hv, _⟩)
  · cases he
  · cases hh
    cases hv

/-- Claim C6, amended: `from_system` either raises an error or returns a handle
holding the head that `getifaddrs` stored; the returned handle is valid exactly
when that head is not null, and on a valid returned handle `head` does not fail
and gives that head. -/
theorem from_system_valid_iff (os : OS) :
    (∃ e, (Ip_adapter_addresses.from_system os).1 = .error e) ∨
    (∃ h, (Ip_adapter_addresses.from_system os).1 = .ok h ∧
       h.data_ = (os.getifaddrs_outcome os.getifaddrs_calls).2 ∧
       (h.is_valid = true ↔ (os.getifaddrs_outcome os.getifaddrs_calls).2 ≠ .null) ∧
       (h.is_valid = true → h.head = .ok (os.getifaddrs_outcome os.getifaddrs_calls).2)) := by
  rw [from_system_fst]
  by_cases h : (os.getifaddrs_outcome os.getifaddrs_calls).1 = 0
  · right
    refine ⟨⟨(os.getifaddrs_outcome os.getifaddrs_calls).2⟩, by simp [h], rfl, ?_, ?_⟩
    · exact to_bool_eq_true_iff _
    · intro hv
      exact head_of_valid _ hv
  · left
    exact ⟨.runtime_error cannot_get_message, by simp [h]⟩

/-- The witness of claim C6: on a system that stores the list `eth0`, the
result is not an error, so it is a valid handle whose head is that list. -/
theorem from_system_valid_iff_witness :
    ∃ h, (Ip_adapter_addresses.from_system (os_with 0 (.to eth0))).1 = .ok h ∧
      h.is_valid = true ∧ h.head = .ok (.to eth0) :=
  (from_system_valid_iff (os_with 0 (.to eth0))).elim
    (fun ⟨_, he⟩ => nomatch he)
    (fun ⟨h, hr, _, hv, hh⟩ => ⟨h, hr, hv.mpr (by simp [os_with]), hh (hv.mpr (by simp [os_with]))⟩)

/-- Claim C7 as stated fails: when `getifaddrs` succeeds and stores a null
head, `from_system` does not return a valid handle whose head is null. -/
theorem from_system_empty_list_not_valid :
    ¬ (∃ h, (Ip_adapter_addresses.from_system (os_with 0 .null)).1 = .ok h ∧
         h.is_valid = true ∧ h.head = .ok .null) := by
  have hr : (Ip_adapter_addresses.from_system (os_with 0 .null)).1 = .ok ⟨.null⟩ := rfl
  rw [hr]
  rintro ⟨h, hh, hv, _⟩
  cases hh
  cases hv

/-- Claim C7, amended: when `getifaddrs` succeeds and stores a null head,
`from_system` raises no error and returns a handle that is not valid, equal to
a default-constructed one, on which both `head` accessors fail with the logic
error; the result differs from the one of a failed acquisition, which is the
runtime error. -/
theorem from_system_empty_list (os : OS)
    (hret : (os.getifaddrs_outcome os.getifaddrs_calls).1 = 0)
    (hnull : (os.getifaddrs_outcome os.getifaddrs_calls).2 = .null) :
    ∃ h, (Ip_adapter_addresses.from_system os).1 = .ok h ∧
      h = Ip_adapter_addresses.ctor ∧
      h.is_valid = false ∧
      h.head = .error (.logic_error invalid_instance_message) ∧
      h.head_mut = .error (.logic_error invalid_instance_message) ∧
      ∀ e, (Ip_adapter_addresses.from_system os).1 ≠ .error e := by
  rw [from_system_fst]
  refine ⟨Ip_adapter_addresses.ctor, ?_, rfl, rfl, rfl, rfl, ?_⟩
  · simp [hret, hnull, Ip_adapter_addresses.ctor]
  · simp [hret]

/-- The witness of claim C7: the system whose call succeeds with a null head. -/
theorem from_system_empty_list_witness :
    ∃ h, (Ip_adapter_addresses.from_system (os_with 0 .null)).1 = .ok h ∧
      h = Ip_adapter_addresses.ctor ∧
      h.is_valid = false ∧
      h.head = .error (.logic_error invalid_instance_message) ∧
      h.head_mut = .error (.logic_error invalid_instance_message) ∧
      ∀ e, (Ip_adapter_addresses.from_system (os_with 0 .null)).1 ≠ .error e :=
  from_system_empty_list (os_with 0 .null) rfl rfl

/-- Claim C8: a default-constructed handle is not valid, converts to false, and
both `head` accessors fail on it with the logic error; both accessors fail with
the logic error on every handle that is not valid. -/
theorem head_fails_iff_invalid (h : Ip_adapter_addresses) :
    Ip_adapter_addresses.ctor.is_valid = false ∧
    Ip_adapter_addresses.ctor.operator_bool = false ∧
    Ip_adapter_addresses.ctor.head = .error (.logic_error invalid_instance_message) ∧
    Ip_adapter_addresses.ctor.head_mut = .error (.logic_error invalid_instance_message) ∧
    (h.is_valid = false →
      h.head = .error (.logic_error invalid_instance_message) ∧
      h.head_mut = .error (.logic_error invalid_instance_message)) :=
  ⟨rfl, rfl, rfl, rfl, fun hv => ⟨head_of_invalid h hv, head_of_invalid h hv⟩⟩

/-- The witness of claim C8: a handle that has been moved from. -/
theorem head_fails_iff_invalid_witness :
    (Ip_adapter_addresses.move ⟨.to eth0⟩).2.head
      = .error (.logic_error invalid_instance_message) ∧
    (Ip_adapter_addresses.move ⟨.to eth0⟩).2.head_mut
      = .error (.logic_error invalid_instance_message) :=
  (head_fails_iff_invalid (Ip_adapter_addresses.move ⟨.to eth0⟩).2).2.2.2.2 rfl

/-- Claim C9: destruction calls `freeifaddrs` exactly once, on the held list,
when the handle is valid, and not at all when it is not, and calls `getifaddrs`
never. So a default-constructed handle and a moved-from handle release nothing,
a failed `from_system` releases nothing, the handle returned by a successful
`from_system` releases the stored list exactly once when that list is not null
and nothing otherwise, a handle and its moved-from source together release what
the handle alone would, and `freeifaddrs` is never called on null. -/
theorem destructor_releases_once (os : OS) (h : Ip_adapter_addresses) :
    ((h.destructor os).freeifaddrs_calls
        = if h.is_valid then os.freeifaddrs_calls ++ [h.data_] else os.freeifaddrs_calls) ∧
    (h.destructor os).getifaddrs_calls = os.getifaddrs_calls ∧
    (Ip_adapter_addresses.ctor.destructor os).freeifaddrs_calls = os.freeifaddrs_calls ∧
    (h.move.2.is_valid = false ∧
      (h.move.2.destructor os).freeifaddrs_calls = os.freeifaddrs_calls ∧
      (h.move.1.destructor (h.move.2.destructor os)).freeifaddrs_calls
        = (h.destructor os).freeifaddrs_calls) ∧
    ((∃ e, (Ip_adapter_addresses.from_system os).1 = .error e) →
      (Ip_adapter_addresses.from_system os).2.freeifaddrs_calls = os.freeifaddrs_calls) ∧
    (∀ r, (Ip_adapter_addresses.from_system os).1 = .ok r →
      (Ip_adapter_addresses.from_system os).2.freeifaddrs_calls = os.freeifaddrs_calls ∧
      (r.destructor (Ip_adapter_addresses.from_system os).2).freeifaddrs_calls
        = if (os.getifaddrs_outcome os.getifaddrs_calls).2.to_bool then
            os.freeifaddrs_calls ++ [(os.getifaddrs_outcome os.getifaddrs_calls).2]
          else os.freeifaddrs_calls) ∧
    (ifaddrs_ptr.null ∉ os.freeifaddrs_calls →
      ifaddrs_ptr.null ∉ (h.destructor os).freeifaddrs_calls ∧
      ifaddrs_ptr.null ∉ (Ip_adapter_addresses.from_system os).2.freeifaddrs_calls ∧
      ∀ r, (Ip_adapter_addresses.from_system os).1 = .ok r →
        ifaddrs_ptr.null ∉ (r.destructor (Ip_adapter_addresses.from_system os).2).freeifaddrs_calls) := by
  have hnull : ∀ (k : Ip_adapter_addresses) (o : OS),
      ifaddrs_ptr.null ∉ o.freeifaddrs_calls →
      ifaddrs_ptr.null ∉ (k.destructor o).freeifaddrs_calls := by
    intro k o ho
    obtain ⟨p⟩ := k
    cases p <;> simp [Ip_adapter_addresses.destructor, freeifaddrs, ho]
  refine ⟨destructor_freeifaddrs_calls h os, ?_, rfl, ⟨rfl, rfl, ?_⟩, ?_, ?_, ?_⟩
  · obtain ⟨p⟩ := h
    cases p <;> rfl
  · obtain ⟨p⟩ := h
    cases p <;> rfl
  · intro _
    rw [from_system_snd]
  · intro r hr
    rw [from_system_snd]
    refine ⟨rfl, ?_⟩
    rw [from_system_fst] at hr
    by_cases hz : (os.getifaddrs_outcome os.getifaddrs_calls).1 = 0
    · simp only [hz, ne_eq, not_true_eq_false, if_false, Except.ok.injEq] at hr
      subst hr
      rw [destructor_freeifaddrs_calls]
      rfl
    · simp [hz] at hr
  · intro ho
    refine ⟨hnull h os ho, ?_, ?_⟩
    · rw [from_system_snd]
      exact ho
    · intro r _
      apply hnull
      rw [from_system_snd]
      exact ho

/-- The witness of claim C9: on a system that stores the list `eth0`, the
handle returned by `from_system` releases exactly that list, once, and a failed
`from_system` releases nothing. -/
theorem destructor_releases_once_witness :
    ((Ip_adapter_addresses.mk (.to eth0)).destructor
        (Ip_adapter_addresses.from_system (os_with 0 (.to eth0))).2).freeifaddrs_calls
      = [.to eth0] ∧
    (Ip_adapter_addresses.from_system (os_with (-1) .null)).2.freeifaddrs_calls = [] :=
  ⟨((destructor_releases_once (os_with 0 (.to eth0)) Ip_adapter_addresses.ctor).2.2.2.2.2.1
      ⟨.to eth0⟩ rfl).2,
   (destructor_releases_once (os_with (-1) .null) Ip_adapter_addresses.ctor).2.2.2.2.1
      ⟨_, rfl⟩⟩

end dmitigr.lin

namespace lin_unit_ifaddrs

open dmitigr.lin

/-! ## The program -/

theorem traverse_no_exception :
    ∀ (p : ifaddrs_ptr) (cout : String) (e : Error),
      (traverse p cout).2 ≠ some (.exception e)
  | .null, cout, e => by simp [traverse]
  | .to (.mk next name addr), cout, e => by
    cases addr with
    | none => simp [traverse]
    | some a =>
      by_cases hf : a.sa_family = AF_PACKET
      · simp only [traverse, hf, if_true, physical_address_string, ifaddrs.ifa_addr, ne_eq,
          not_true_eq_false, if_false]
        exact traverse_no_exception next _ e
      · simp only [traverse, hf, if_false]
        exact traverse_no_exception next _ e

theorem traverse_signal :
    ∀ (p : ifaddrs_ptr) (cout : String),
      (traverse p cout).2
        = if some_address_null p then some .null_dereference else none
  | .null, cout => by simp [traverse, some_address_null]
  | .to (.mk next name addr), cout => by
    cases addr with
    | none => simp [traverse, some_address_null]
    | some a =>
      by_cases hf : a.sa_family = AF_PACKET
      · simp only [traverse, hf, if_true, physical_address_string, ifaddrs.ifa_addr, ne_eq,
          not_true_eq_false, if_false, some_address_null, Option.isNone_some, Bool.false_or]
        exact traverse_signal next _
      · simp only [traverse, hf, if_false, some_address_null, Option.isNone_some, Bool.false_or]
        exact traverse_signal next _

/-- Claim C10 fails on the code: on the list `tun0`, `eth0`, whose first record
has no address, the program reads the address family through the null pointer,
so it does not return, and it reports nothing, not even the packet-family
record `eth0`, which it does report when that record is alone. -/
theorem main_null_address :
    (main (os_with 0 tun0_then_eth0)).termination = .undefined_behaviour ∧
    (main (os_with 0 tun0_then_eth0)).cout = "" ∧
    (main (os_with 0 (.to eth0))).termination = .returned 0 ∧
    (main (os_with 0 (.to eth0))).cout
      = "Adapter eth0:\n  physical address: 00-1a-2b-3c-4d-5e\n" :=
  ⟨rfl, rfl, rfl, rfl⟩

end lin_unit_ifaddrs
